import Mathlib

/-!
Verification of the résumé-to-LER-RS credential converter
(`build_resume_ler_rs.py`) against its natural-language specification.

The Python source is shallowly embedded below.  Strings are handled through
their underlying character lists; the Python string methods used by the
source (`strip`, `lower`, `split`, `isupper`, `startswith`) are embedded as
executable functions over `List Char`.  The regular expressions of the
source are tiny and are embedded directly:
  * `re.split(r"\s[–-]\s", text, 1)` becomes `splitSep`, a scanner for the
    first occurrence of (whitespace, dash, whitespace);
  * `ROLE_RE.search` (a case-insensitive whole-word search for a fixed
    keyword set) becomes `role_search`.
Whitespace (`\s`, `str.strip`, `str.split`) is modelled over the six ASCII
whitespace characters; the alphabetic character classes are modelled over
ASCII, matching the Python behaviour on ASCII input.

`uuid4` identifiers and timestamps are external nondeterminism; record
`id`/`type` fields and the time fields are constants or fresh identifiers
irrelevant to the verified properties, so records are embedded with their
content fields, and freshly generated identifiers are passed as explicit
parameters where a claim mentions them.
-/

/-! ## Python-style string primitives -/

/-- The characters matched by Python's `\s` and stripped by `str.strip`
(ASCII portion). -/
def isPySpace (c : Char) : Bool :=
  c = ' ' || c = '\t' || c = '\n' || c = '\x0d' || c = '\x0b' || c = '\x0c'

/-- A word character for the purposes of `\b` in Python's `re`
(ASCII portion): letters, digits, underscore. -/
def isWordChar (c : Char) : Bool :=
  c.isAlphanum || c = '_'

/-- `str.lower` (ASCII portion). -/
def pyLower (s : String) : String :=
  String.mk (s.data.map Char.toLower)

/-- `str.strip` with no argument: drop leading and trailing whitespace. -/
def pyStrip (s : String) : String :=
  String.mk (((s.data.dropWhile isPySpace).reverse.dropWhile isPySpace).reverse)

/-- Does the character list `s` start with the character list `p`? -/
def strStarts : List Char → List Char → Bool
  | [], _ => true
  | _ :: _, [] => false
  | a :: as, b :: bs => a = b && strStarts as bs

/-- `str.startswith p`. -/
def pyStartsWith (s p : String) : Bool :=
  strStarts p.data s.data

/-- Helper for `pySplit`: split on whitespace runs, accumulating the current
word (reversed). -/
def pySplitGo (cur : List Char) : List Char → List (List Char)
  | [] => if cur.isEmpty then [] else [cur.reverse]
  | c :: rest =>
    if isPySpace c then
      if cur.isEmpty then pySplitGo [] rest else cur.reverse :: pySplitGo [] rest
    else
      pySplitGo (c :: cur) rest

/-- `str.split` with no argument: split on whitespace runs, no empty parts. -/
def pySplit (s : String) : List String :=
  (pySplitGo [] s.data).map String.mk

/-- `str.isupper` (ASCII portion): at least one letter and no lowercase
letter. -/
def pyIsUpper (s : String) : Bool :=
  s.data.any (fun c => c.isAlpha) && s.data.all (fun c => !c.isLower)

/-! ## `ROLE_RE` : case-insensitive whole-word keyword search -/

/-- The keyword alternatives of `ROLE_RE` in the source. -/
def ROLE_KEYWORDS : List String :=
  ["manager", "director", "engineer", "developer", "analyst",
   "lead", "officer", "consultant", "specialist"]

/-- Case-insensitively match the keyword `kw` at the head of `cs`,
returning the remaining characters on success. -/
def matchKw : List Char → List Char → Option (List Char)
  | [], rest => some rest
  | _ :: _, [] => none
  | k :: ks, c :: cs => if c.toLower = k then matchKw ks cs else none

/-- A `\b` word boundary next to a keyword holds when the adjacent
character (if any) is not a word character. -/
def boundaryOk : Option Char → Bool
  | none => true
  | some c => !isWordChar c

/-- Does some role keyword match at the head of `cs`, with a word boundary
after it? -/
def kwHere (cs : List Char) : Bool :=
  ROLE_KEYWORDS.any fun kw =>
    match matchKw kw.data cs with
    | some rest => boundaryOk rest.head?
    | none => false

/-- Scan `cs` for a whole-word keyword occurrence; `prev` is the character
just before the current position (`none` at the start of the string). -/
def roleAux : Option Char → List Char → Bool
  | prev, [] => boundaryOk prev && kwHere []
  | prev, c :: rest => (boundaryOk prev && kwHere (c :: rest)) || roleAux (some c) rest

/-- `ROLE_RE.search(s)` is truthy: some whole-word, case-insensitive
occurrence of a role keyword exists in `s`. -/
def role_search (s : String) : Bool :=
  roleAux none s.data

/-! ## The separator split of `to_position` -/

/-- A hyphen or en-dash, the character class `[–-]` of the source. -/
def isDash (c : Char) : Bool :=
  c = '–' || c = '-'

/-- Scanner for `re.split(r"\s[–-]\s", text, 1)`: find the leftmost
(whitespace, dash, whitespace) triple, returning the characters before it
and after it. -/
def splitSepGo (acc : List Char) : List Char → Option (List Char × List Char)
  | a :: b :: c :: rest =>
    if isPySpace a && isDash b && isPySpace c then
      some (acc.reverse, rest)
    else
      splitSepGo (a :: acc) (b :: c :: rest)
  | _ => none

/-- `re.split(r"\s[–-]\s", text, 1)` producing two parts, or `none` when
the pattern does not occur. -/
def splitSep (cs : List Char) : Option (List Char × List Char) :=
  splitSepGo [] cs

/-- Does a (whitespace, dash, whitespace) triple start at index `i`? -/
def tripleAt (cs : List Char) (i : Nat) : Bool :=
  match cs.drop i with
  | a :: b :: c :: _ => isPySpace a && isDash b && isPySpace c
  | _ => false

/-- Does the separator pattern occur anywhere in `cs`? -/
def hasSep : List Char → Bool
  | a :: b :: c :: rest =>
    (isPySpace a && isDash b && isPySpace c) || hasSep (b :: c :: rest)
  | _ => false

/-! ## Record builders -/

/-- Python's `s or None` on a string: the empty string is falsy. -/
def orNone (s : String) : Option String :=
  if s = "" then none else some s

/-- The content fields of a `Position` record (`id` is a fresh UUID and
`type` is the constant `"Position"`; neither depends on the input text). -/
structure Position where
  jobTitle : Option String
  organization : Option String
  description : Option String
deriving Repr, DecidableEq

/-- The content field of an `Education` record. -/
structure Education where
  description : Option String
deriving Repr, DecidableEq

/-- The content field of a `Competency` record. -/
structure Competency where
  name : Option String
deriving Repr, DecidableEq

/-- The content field of an `Achievement` record. -/
structure Achievement where
  description : Option String
deriving Repr, DecidableEq

/-- `to_position` from the source: split on the first whitespace-surrounded
dash; the left part is the job title when `ROLE_RE` matches it, otherwise
the right part is; without a separator the whole text is the job title. -/
def to_position (text : String) : Position :=
  match splitSep text.data with
  | some (l, r) =>
    let left := String.mk l
    let right := String.mk r
    let p := if role_search left then (left, right) else (right, left)
    { jobTitle := orNone p.1, organization := orNone p.2, description := orNone text }
  | none =>
    { jobTitle := orNone text, organization := none, description := orNone text }

/-- `to_edu` from the source. -/
def to_edu (text : String) : Education :=
  { description := orNone text }

/-- `to_comp` from the source. -/
def to_comp (text : String) : Competency :=
  { name := orNone text }

/-- `to_ach` from the source. -/
def to_ach (text : String) : Achievement :=
  { description := orNone text }

/-! ## Heading canonicalisation -/

/-- First-match association-list lookup (Python `dict.get` over the literal
table; the table's keys are distinct). -/
def alookup {β : Type} (t : String) : List (String × β) → Option β
  | [] => none
  | (k, v) :: rest => if k = t then some v else alookup t rest

/-- `SECTION_MAP` from the source. -/
def SECTION_MAP : List (String × String) :=
  [("experience", "positionHistory"),
   ("professional experience", "positionHistory"),
   ("work experience", "positionHistory"),
   ("work history", "positionHistory"),
   ("employment history", "positionHistory"),
   ("employment", "positionHistory"),
   ("education", "educationHistory"),
   ("academic background", "educationHistory"),
   ("skills", "competency"),
   ("competencies", "competency"),
   ("awards", "achievements"),
   ("honors", "achievements")]

/-- `canonical` from the source: `SECTION_MAP.get(head.lower().strip())`. -/
def canonical (head : String) : Option String :=
  alookup (pyStrip (pyLower head)) SECTION_MAP

/-! ## Structure classifier (`parse_docx` loop) -/

/-- One input paragraph: its raw text and the style name the document
parser reports for it (the empty string when the paragraph has no style). -/
structure Para where
  text : String
  style : String
deriving Repr, DecidableEq

/-- `looks_like_heading` from the source. -/
def looks_like_heading (text : String) : Bool :=
  pyIsUpper text
    && (decide (2 ≤ (pySplit text).length) && decide ((pySplit text).length ≤ 5))
    && decide (4 ≤ (text.data.filter (fun c => c.isAlpha)).length)

/-- Python-dict assignment `out[k] = v`: replace in place when the key
exists (keeping its position, as Python dicts do), else append. -/
def dictSet (d : List (String × List String)) (k : String) (v : List String) :
    List (String × List String) :=
  if d.any (fun e => e.1 = k) then
    d.map (fun e => (e.1, if e.1 = k then v else e.2))
  else
    d ++ [(k, v)]

/-- Python `out[k].append(x)`: append `x` to the entry keyed `k` (keys are
unique by construction, so mapping over all entries is the same). -/
def dictAppend (d : List (String × List String)) (k : String) (x : String) :
    List (String × List String) :=
  d.map (fun e => (e.1, if e.1 = k then e.2 ++ [x] else e.2))

/-- The loop state of `parse_docx`: the captured title, the currently open
heading, and the ordered heading-to-paragraphs mapping. -/
structure PState where
  name : Option String
  current : Option String
  out : List (String × List String)
deriving Repr, DecidableEq

/-- One iteration of the `parse_docx` loop over a paragraph. -/
def parse_step (st : PState) (p : Para) : PState :=
  let txt := pyStrip p.text
  if txt = "" then st
  else
    let style := pyLower p.style
    if style = "title" ∨ pyStartsWith style "heading 1" = true then
      if st.name.isNone then { st with name := some txt } else st
    else if (pyStartsWith style "heading" = true ∧ ¬pyStartsWith style "heading 1" = true)
        ∨ looks_like_heading txt = true then
      { st with current := some txt, out := dictSet st.out txt [] }
    else
      match st.current with
      | some cur => if cur = "" then st else { st with out := dictAppend st.out cur txt }
      | none => st

/-- `parse_docx` from the source, over the paragraph stream the external
document parser yields: returns the detected title and the grouped body
paragraphs. -/
def parse_docx (paras : List Para) : Option String × List (String × List String) :=
  let st := paras.foldl parse_step { name := none, current := none, out := [] }
  (st.name, st.out)

/-- The section-heading test of the loop (line 63 of the source), applied
to a paragraph: non-empty trimmed text, not title-styled, and either a
non-level-1 heading style or the `looks_like_heading` heuristic. -/
def isSectionHeading (p : Para) : Prop :=
  pyStrip p.text ≠ ""
    ∧ ¬(pyLower p.style = "title" ∨ pyStartsWith (pyLower p.style) "heading 1" = true)
    ∧ ((pyStartsWith (pyLower p.style) "heading" = true
          ∧ ¬pyStartsWith (pyLower p.style) "heading 1" = true)
        ∨ looks_like_heading (pyStrip p.text) = true)

instance (p : Para) : Decidable (isSectionHeading p) := by
  unfold isSectionHeading
  infer_instance

/-! ## Credential subject assembly (`build_vc`, lines 134–150) -/

/-- The four canonical collections of the credential subject; a field is
`none` exactly when its key is absent from the Python dict. -/
structure Subject where
  positionHistory : Option (List Position)
  educationHistory : Option (List Education)
  competency : Option (List Competency)
  achievements : Option (List Achievement)
deriving Repr, DecidableEq

/-- The subject before any section has been processed. -/
def emptySubject : Subject :=
  { positionHistory := none, educationHistory := none,
    competency := none, achievements := none }

/-- `subject.setdefault(key, []).extend(objs)` guarded by `if objs:` —
when `objs` is empty nothing happens, otherwise the key's list (defaulting
to empty) is extended. -/
def extOpt {α : Type} : Option (List α) → List α → Option (List α)
  | o, [] => o
  | o, l => some (o.getD [] ++ l)

/-- One iteration of the sections loop of `build_vc`: canonicalise the
heading, build a record per non-empty paragraph, and extend the matching
collection when any record was built. -/
def addGroup (s : Subject) (head : String) (paras : List String) : Subject :=
  match canonical head with
  | none => s
  | some key =>
    let texts := paras.filter (fun t => t ≠ "")
    if key = "positionHistory" then
      { s with positionHistory := extOpt s.positionHistory (texts.map to_position) }
    else if key = "educationHistory" then
      { s with educationHistory := extOpt s.educationHistory (texts.map to_edu) }
    else if key = "competency" then
      { s with competency := extOpt s.competency (texts.map to_comp) }
    else if key = "achievements" then
      { s with achievements := extOpt s.achievements (texts.map to_ach) }
    else s

/-- The sections loop of `build_vc` over the grouped paragraphs. -/
def sectionLoop (sections : List (String × List String)) : Subject :=
  sections.foldl (fun acc g => addGroup acc g.1 g.2) emptySubject

/-- The fallback record of `build_vc`: a `Position` with all three content
fields null. -/
def nullPosition : Position :=
  { jobTitle := none, organization := none, description := none }

/-- Is any of the four canonical keys present in the subject? (`any(key in
subject for key in (...))`). -/
def hasAnyCollection (s : Subject) : Bool :=
  s.positionHistory.isSome || s.educationHistory.isSome
    || s.competency.isSome || s.achievements.isSome

/-- Lines 134–150 of the source: run the sections loop, then inject the
fallback all-null `Position` when no collection was populated. -/
def build_subject (sections : List (String × List String)) : Subject :=
  let s := sectionLoop sections
  if hasAnyCollection s then s
  else { emptySubject with positionHistory := some [nullPosition] }

/-- The non-empty paragraphs of the groups whose heading canonicalises to
`key`, concatenated in the order the groups occur. -/
def routedTexts (key : String) : List (String × List String) → List String
  | [] => []
  | (h, p) :: rest =>
    (if canonical h = some key then p.filter (fun t => t ≠ "") else [])
      ++ routedTexts key rest

/-- `none` for the empty list, `some` otherwise: the shape of a collection
that is present exactly when non-empty. -/
def optOfList {α : Type} (l : List α) : Option (List α) :=
  match l with
  | [] => none
  | _ => some l

/-! ## JSON values and the null-normaliser -/

/-- JSON-like Python values: `None`, strings, numbers, booleans, lists,
dicts (as ordered key/value lists). -/
inductive Json where
  | null : Json
  | str : String → Json
  | num : Int → Json
  | bool : Bool → Json
  | arr : List Json → Json
  | obj : List (String × Json) → Json
deriving Repr

mutual

/-- `replace_nulls` from the source: `None` becomes `"Unknown"`, a list is
normalised elementwise with the empty list becoming `["Unknown"]` (Python's
`[...] or ["Unknown"]`), a dict is normalised valuewise, scalars pass
through. -/
def replace_nulls : Json → Json
  | .null => .str "Unknown"
  | .str s => .str s
  | .num n => .num n
  | .bool b => .bool b
  | .arr xs => .arr (match xs with
      | [] => [.str "Unknown"]
      | x :: rest => replace_nulls x :: replaceList rest)
  | .obj kvs => .obj (replaceObj kvs)

/-- Elementwise `replace_nulls` over a list (the list comprehension). -/
def replaceList : List Json → List Json
  | [] => []
  | x :: xs => replace_nulls x :: replaceList xs

/-- Valuewise `replace_nulls` over a dict (the dict comprehension). -/
def replaceObj : List (String × Json) → List (String × Json)
  | [] => []
  | (k, v) :: kvs => (k, replace_nulls v) :: replaceObj kvs

end

/-- Python truthiness of a JSON-like value: `None`, `""`, `0`, `False`, and
empty collections are falsy. -/
def isFalsy : Json → Bool
  | .null => true
  | .str s => s = ""
  | .num n => n = 0
  | .bool b => !b
  | .arr l => l.isEmpty
  | .obj l => l.isEmpty

/-- Python `a or b` on JSON-like values. -/
def pyOrJ (a b : Json) : Json :=
  if isFalsy a then b else a

/-- Dict assignment `d[k] = v` for a key already present (value replaced in
place; keys are unique in the credential). -/
def objSet (kvs : List (String × Json)) (k : String) (v : Json) :
    List (String × Json) :=
  kvs.map fun kv => (kv.1, if kv.1 = k then v else kv.2)

/-- Lines 238–239 of the source: if the credential has a `proof` dict with
a `jws` entry, replace that entry by `jws or "dummy"`. -/
def fixJws (vc : Json) : Json :=
  match vc with
  | .obj kvs =>
    match alookup "proof" kvs with
    | some (.obj pkvs) =>
      match alookup "jws" pkvs with
      | some jws =>
        .obj (objSet kvs "proof" (.obj (objSet pkvs "jws" (pyOrJ jws (.str "dummy")))))
      | none => vc
    | _ => vc
  | _ => vc

/-- The post-processing of `main` (lines 236–239): normalise nulls, then
patch the signature placeholder. -/
def finalize (vc : Json) : Json :=
  fixJws (replace_nulls vc)

/-- The `proof.jws` entry of a credential value, when present. -/
def jwsOf (vc : Json) : Option Json :=
  match vc with
  | .obj kvs =>
    match alookup "proof" kvs with
    | some (.obj pkvs) => alookup "jws" pkvs
    | _ => none
  | _ => none

/-- An optional string as a JSON value (`None` or a string). -/
def optStrJson : Option String → Json
  | none => .null
  | some s => .str s

/-- The JSON dict a `Position` record serialises to, given its freshly
generated `id`. -/
def positionJson (id : String) (p : Position) : Json :=
  .obj [("id", .str id), ("type", .str "Position"),
        ("jobTitle", optStrJson p.jobTitle),
        ("organization", optStrJson p.organization),
        ("description", optStrJson p.description)]

/-! ## Personal data, identifiers, and overrides (`build_vc`, lines 114–156) -/

/-- The optional command-line overrides consumed by `build_vc` (`None`
when a flag is absent). -/
structure Args where
  subject_id : Option String
  issuer_id : Option String
  issuer_name : Option String
  given_name : Option String
  family_name : Option String
  email : Option String
  phone : Option String
deriving Repr, DecidableEq

/-- An `Args` value with no override provided. -/
def noArgs : Args :=
  { subject_id := none, issuer_id := none, issuer_name := none,
    given_name := none, family_name := none, email := none, phone := none }

/-- Python `a or b` where `a` is an optional string and `b` optional: an
absent or empty `a` falls through to `b`. -/
def pyOrOpt (a : Option String) (b : Option String) : Option String :=
  match a with
  | some s => if s = "" then b else some s
  | none => b

/-- Python `a or b` where `a` is an optional string and `b` a string. -/
def pyOrStr (a : Option String) (b : String) : String :=
  match a with
  | some s => if s = "" then b else s
  | none => b

/-- `name.split()[0] if name else None`. -/
def deriveGiven (name : Option String) : Option String :=
  match name with
  | some n => if n = "" then none else (pySplit n).head?
  | none => none

/-- `name.split()[-1] if name and len(name.split()) > 1 else None`. -/
def deriveFamily (name : Option String) : Option String :=
  match name with
  | some n =>
    if n ≠ "" && decide (1 < (pySplit n).length) then (pySplit n).getLast? else none
  | none => none

/-- The `personalData` dict (all four keys always present, line 125 of the
source keeps them in this fixed order). -/
structure PersonalData where
  givenName : Option String
  familyName : Option String
  email : Option String
  phone : Option String
deriving Repr, DecidableEq

/-- Lines 116–125 of the source: overrides win over title-derived names;
`email`/`phone` are the overrides or null. -/
def personal_of (args : Args) (name : Option String) : PersonalData :=
  { givenName := pyOrOpt args.given_name (deriveGiven name),
    familyName := pyOrOpt args.family_name (deriveFamily name),
    email := pyOrOpt args.email none,
    phone := pyOrOpt args.phone none }

/-- Line 128 of the source: `args.subject_id or new_uuid()`, with the
freshly generated identifier passed explicitly. -/
def subject_id_of (args : Args) (fresh : String) : String :=
  pyOrStr args.subject_id fresh

/-- The issuer dict (its `type` field is constant). -/
structure Issuer where
  id : String
  name : String
deriving Repr, DecidableEq

/-- Lines 152–156 of the source: issuer id/name overrides with their
defaults (a fresh identifier, a fixed display name). -/
def issuer_of (args : Args) (fresh : String) : Issuer :=
  { id := pyOrStr args.issuer_id fresh,
    name := pyOrStr args.issuer_name "Self-issued résumé builder" }

/-! ## Lemmas about the separator split -/

theorem role_search_empty : role_search "" = false := by decide

theorem role_search_ne_empty {s : String} (h : role_search s = true) : s ≠ "" := by
  intro e
  rw [e, role_search_empty] at h
  exact Bool.false_ne_true h

theorem to_position_of_split (text l r : String)
    (h : splitSep text.data = some (l.data, r.data)) :
    to_position text =
      { jobTitle := orNone (if role_search l then l else r),
        organization := orNone (if role_search l then r else l),
        description := orNone text } := by
  have el : String.mk l.data = l := rfl
  have er : String.mk r.data = r := rfl
  simp only [to_position, h]
  by_cases hl : role_search l <;> simp [el, er, hl]

theorem tripleAt_cons (x : Char) (cs : List Char) (i : Nat) :
    tripleAt (x :: cs) (i + 1) = tripleAt cs i := rfl

theorem splitSepGo_sound (cs : List Char) : ∀ acc l r,
    splitSepGo acc cs = some (l, r) →
    ∃ l', l = acc.reverse ++ l' ∧
      (∃ a b c, (isPySpace a && isDash b && isPySpace c) = true ∧
        cs = l' ++ a :: b :: c :: r) ∧
      ∀ i, i < l'.length → tripleAt cs i = false := by
  induction cs with
  | nil => intro acc l r h; simp [splitSepGo] at h
  | cons a tail ih =>
    intro acc l r h
    rcases tail with _ | ⟨b, tail2⟩
    · simp [splitSepGo] at h
    rcases tail2 with _ | ⟨c, rest⟩
    · simp [splitSepGo] at h
    by_cases htr : (isPySpace a && isDash b && isPySpace c) = true
    · rw [splitSepGo, if_pos htr] at h
      obtain ⟨hl, hr⟩ := Prod.mk.inj (Option.some.inj h)
      refine ⟨[], by simp [hl], ⟨a, b, c, htr, by simp [hr]⟩, ?_⟩
      intro i hi; simp at hi
    · rw [splitSepGo, if_neg htr] at h
      obtain ⟨l', hacc, ⟨a', b', c', htr', heq⟩, hfirst⟩ := ih (a :: acc) l r h
      refine ⟨a :: l', ?_, ⟨a', b', c', htr', by simp [heq]⟩, ?_⟩
      · simpa using hacc
      · intro i hi
        cases i with
        | zero =>
          simp only [tripleAt, List.drop_zero]
          exact Bool.not_eq_true _ ▸ (by simpa using htr)
        | succ j =>
          rw [tripleAt_cons]
          exact hfirst j (by simpa using hi)

theorem splitSepGo_of_no_sep (cs : List Char) : ∀ acc,
    hasSep cs = false → splitSepGo acc cs = none := by
  induction cs with
  | nil => intro acc _; rfl
  | cons a tail ih =>
    intro acc h
    rcases tail with _ | ⟨b, tail2⟩
    · rfl
    rcases tail2 with _ | ⟨c, rest⟩
    · rfl
    rw [hasSep] at h
    have h1 : (isPySpace a && isDash b && isPySpace c) = false := by
      cases hx : (isPySpace a && isDash b && isPySpace c) <;> simp [hx] at h ⊢
    have h2 : hasSep (b :: c :: rest) = false := by
      cases hx : hasSep (b :: c :: rest) <;> simp [hx] at h ⊢
    rw [splitSepGo, if_neg (by simp [h1])]
    exact ih _ h2

/-! ## Claim theorems on `to_position` -/

/-- C1, counterexample: for the position text `"Alpha Co - Beta Inc"`,
whose two sides both lack a role keyword, the built record does NOT have
`jobTitle` equal to the left side and `organization` equal to the right
side, contradicting the claimed default-left rule. -/
theorem toPosition_default_left_cex :
    role_search "Alpha Co" = false ∧ role_search "Beta Inc" = false ∧
    splitSep ("Alpha Co - Beta Inc").data = some (("Alpha Co").data, ("Beta Inc").data) ∧
    ¬((to_position "Alpha Co - Beta Inc").jobTitle = some "Alpha Co" ∧
      (to_position "Alpha Co - Beta Inc").organization = some "Beta Inc") := by
  decide

/-- C1, amended: for every position-source text split at the first
whitespace-surrounded hyphen/en-dash into non-empty sides, when the role
keyword set matches neither side, the built record has `jobTitle` equal to
the RIGHT side and `organization` equal to the LEFT side (a default-right
rule: the left side becomes the job title only when a role keyword matches
it). -/
theorem toPosition_no_keyword_default_right (text l r : String)
    (h : splitSep text.data = some (l.data, r.data))
    (hl : role_search l = false) (hr : role_search r = false)
    (hl0 : l ≠ "") (hr0 : r ≠ "") :
    (to_position text).jobTitle = some r ∧ (to_position text).organization = some l := by
  rw [to_position_of_split text l r h]
  simp [hl, orNone, hl0, hr0]

/-- Witness for the amended C1 at a concrete input. -/
theorem toPosition_no_keyword_default_right_witness :
    (to_position "Alpha Co - Beta Inc").jobTitle = some "Beta Inc" ∧
    (to_position "Alpha Co - Beta Inc").organization = some "Alpha Co" :=
  toPosition_no_keyword_default_right "Alpha Co - Beta Inc" "Alpha Co" "Beta Inc"
    (by decide) (by decide) (by decide) (by decide) (by decide)

/-- C9: when the role keyword set matches BOTH sides of the first
separator, the left side becomes `jobTitle` and the right side becomes
`organization` — the left match takes priority. -/
theorem toPosition_both_keywords_left_wins (text l r : String)
    (h : splitSep text.data = some (l.data, r.data))
    (hl : role_search l = true) (hr : role_search r = true) :
    (to_position text).jobTitle = some l ∧ (to_position text).organization = some r := by
  rw [to_position_of_split text l r h]
  simp [hl, orNone, role_search_ne_empty hl, role_search_ne_empty hr]

/-- Witness for C9 at a concrete input with role keywords on both sides. -/
theorem toPosition_both_keywords_left_wins_witness :
    (to_position "Senior Manager - Engineer Corp").jobTitle = some "Senior Manager" ∧
    (to_position "Senior Manager - Engineer Corp").organization = some "Engineer Corp" :=
  toPosition_both_keywords_left_wins "Senior Manager - Engineer Corp"
    "Senior Manager" "Engineer Corp" (by decide) (by decide) (by decide)

/-- C2: the split policy of `to_position`.  Without any
whitespace-surrounded dash the whole (non-empty) text is the job title and
the organization is null.  When the text is split, it is split exactly once
at the FIRST separator occurrence (the text reassembles from the two sides
around one separator, and no separator triple starts inside the left
side), and a role keyword matching exactly one side makes that side the
job title and the other the organization. -/
theorem toPosition_split_policy (text : String) :
    (hasSep text.data = false → text ≠ "" →
      (to_position text).jobTitle = some text ∧
      (to_position text).organization = none) ∧
    (∀ l r : String, splitSep text.data = some (l.data, r.data) →
      (∃ a b c, (isPySpace a && isDash b && isPySpace c) = true ∧
          text.data = l.data ++ a :: b :: c :: r.data ∧
          ∀ i, i < l.data.length → tripleAt text.data i = false) ∧
      (role_search l = true → role_search r = false → r ≠ "" →
        (to_position text).jobTitle = some l ∧
        (to_position text).organization = some r) ∧
      (role_search l = false → role_search r = true → l ≠ "" →
        (to_position text).jobTitle = some r ∧
        (to_position text).organization = some l)) := by
  constructor
  · intro hno hne
    have hnone : splitSep text.data = none := splitSepGo_of_no_sep text.data [] hno
    simp [to_position, hnone, orNone, hne]
  · intro l r h
    refine ⟨?_, ?_, ?_⟩
    · obtain ⟨l', hacc, habc, hfirst⟩ := splitSepGo_sound text.data [] _ _ h
      simp only [List.reverse_nil, List.nil_append] at hacc
      subst hacc
      exact ⟨habc.choose, habc.choose_spec.choose, habc.choose_spec.choose_spec.choose,
        habc.choose_spec.choose_spec.choose_spec.1,
        habc.choose_spec.choose_spec.choose_spec.2, hfirst⟩
    · intro hl _hr hr0
      rw [to_position_of_split text l r h]
      simp [hl, orNone, role_search_ne_empty hl, hr0]
    · intro hl hr hl0
      rw [to_position_of_split text l r h]
      simp [hl, orNone, role_search_ne_empty hr, hl0]

/-- Witness for C2: the no-separator branch and the
keyword-on-the-right-only branch at concrete inputs. -/
theorem toPosition_split_policy_witness :
    ((to_position "Just A Title").jobTitle = some "Just A Title" ∧
     (to_position "Just A Title").organization = none) ∧
    ((to_position "Acme Corp – Senior Engineer").jobTitle = some "Senior Engineer" ∧
     (to_position "Acme Corp – Senior Engineer").organization = some "Acme Corp") :=
  ⟨(toPosition_split_policy "Just A Title").1 (by decide) (by decide),
   ((toPosition_split_policy "Acme Corp – Senior Engineer").2 "Acme Corp" "Senior Engineer"
      (by decide)).2.2 (by decide) (by decide) (by decide)⟩

/-- C10: the `description` field of a built `Position` record is always
the entire original paragraph text (separator included, whether or not the
text was split), and is null exactly when the text is empty. -/
theorem toPosition_description_whole_text (text : String) :
    (to_position text).description = if text = "" then none else some text := by
  rcases h : splitSep text.data with _ | ⟨l, r⟩ <;> simp [to_position, h, orNone]

/-! ## Claim theorems on the overrides -/

/-- C8, counterexample: the `given-name` override provided as the EMPTY
string is not used — the title-derived name wins instead, so a provided
override does not always take precedence. -/
theorem override_empty_string_cex :
    ({ noArgs with given_name := some "" } : Args).given_name = some "" ∧
    (personal_of { noArgs with given_name := some "" } (some "Jane Q Public")).givenName
      = some "Jane" ∧
    (some "Jane" : Option String) ≠ some "" := by
  decide

/-- C8, amended: every override provided as a NON-EMPTY string takes
precedence over the derived value (for given/family name, over the names
derived from the detected document title, whatever the title is); an
override provided as the empty string is treated as absent (Python `or`
truthiness) and the derived value is used instead. -/
theorem overrides_win (args : Args) (name : Option String) (fresh1 fresh2 : String) :
    (∀ s, args.subject_id = some s → s ≠ "" → subject_id_of args fresh1 = s) ∧
    (∀ s, args.issuer_id = some s → s ≠ "" → (issuer_of args fresh2).id = s) ∧
    (∀ s, args.issuer_name = some s → s ≠ "" → (issuer_of args fresh2).name = s) ∧
    (∀ s, args.given_name = some s → s ≠ "" → (personal_of args name).givenName = some s) ∧
    (∀ s, args.family_name = some s → s ≠ "" → (personal_of args name).familyName = some s) ∧
    (∀ s, args.email = some s → s ≠ "" → (personal_of args name).email = some s) ∧
    (∀ s, args.phone = some s → s ≠ "" → (personal_of args name).phone = some s) := by
  refine ⟨?_, ?_, ?_, ?_, ?_, ?_, ?_⟩ <;>
    · intro s hs hne
      simp [subject_id_of, issuer_of, personal_of, pyOrStr, pyOrOpt, hs, hne]

/-- Witness for the amended C8: a subject-id override and the spec's
`"J."` given-name override at concrete inputs. -/
theorem overrides_win_witness :
    subject_id_of { noArgs with subject_id := some "urn:me" } "urn:fresh" = "urn:me" ∧
    (personal_of { noArgs with given_name := some "J." } (some "Jane Q Public")).givenName
      = some "J." :=
  ⟨(overrides_win { noArgs with subject_id := some "urn:me" } none "urn:fresh" "x").1
      "urn:me" rfl (by decide),
   (overrides_win { noArgs with given_name := some "J." } (some "Jane Q Public") "x" "x").2.2.2.1
      "J." rfl (by decide)⟩

/-! ## Lemmas on the sections loop -/

theorem extOpt_nil {α : Type} (o : Option (List α)) : extOpt o [] = o := rfl

theorem extOpt_eq {α : Type} (o : Option (List α)) (l : List α) :
    extOpt o l = if l.isEmpty then o else some (o.getD [] ++ l) := by
  cases l <;> simp [extOpt]

theorem extOpt_append {α : Type} (o : Option (List α)) (a b : List α) :
    extOpt (extOpt o a) b = extOpt o (a ++ b) := by
  rcases a with _ | ⟨x, xs⟩ <;> rcases b with _ | ⟨y, ys⟩ <;>
    simp [extOpt_eq, List.append_assoc]

theorem alookup_mem {β : Type} (t : String) (l : List (String × β)) (v : β)
    (h : alookup t l = some v) : v ∈ l.map Prod.snd := by
  induction l with
  | nil => simp [alookup] at h
  | cons e rest ih =>
    rcases e with ⟨k, w⟩
    rw [alookup] at h
    by_cases hk : k = t
    · rw [if_pos hk] at h
      simp [Option.some.inj h]
    · rw [if_neg hk] at h
      simp [ih h]

theorem canonical_cases (head key : String) (h : canonical head = some key) :
    key = "positionHistory" ∨ key = "educationHistory"
      ∨ key = "competency" ∨ key = "achievements" := by
  have hm := alookup_mem (pyStrip (pyLower head)) SECTION_MAP key h
  simp only [SECTION_MAP, List.map_cons, List.map_nil, List.mem_cons,
    List.not_mem_nil, or_false] at hm
  rcases hm with h | h | h | h | h | h | h | h | h | h | h | h <;> simp [h]

theorem addGroup_positionHistory (s : Subject) (head : String) (paras : List String) :
    (addGroup s head paras).positionHistory =
      extOpt s.positionHistory
        (if canonical head = some "positionHistory" then
          (paras.filter (fun t => t ≠ "")).map to_position
        else []) := by
  rcases hc : canonical head with _ | key
  · simp [addGroup, hc, extOpt_nil]
  · rcases canonical_cases head key hc with h | h | h | h <;>
      subst h <;> simp [addGroup, hc, extOpt_nil]

theorem addGroup_educationHistory (s : Subject) (head : String) (paras : List String) :
    (addGroup s head paras).educationHistory =
      extOpt s.educationHistory
        (if canonical head = some "educationHistory" then
          (paras.filter (fun t => t ≠ "")).map to_edu
        else []) := by
  rcases hc : canonical head with _ | key
  · simp [addGroup, hc, extOpt_nil]
  · rcases canonical_cases head key hc with h | h | h | h <;>
      subst h <;> simp [addGroup, hc, extOpt_nil]

theorem addGroup_competency (s : Subject) (head : String) (paras : List String) :
    (addGroup s head paras).competency =
      extOpt s.competency
        (if canonical head = some "competency" then
          (paras.filter (fun t => t ≠ "")).map to_comp
        else []) := by
  rcases hc : canonical head with _ | key
  · simp [addGroup, hc, extOpt_nil]
  · rcases canonical_cases head key hc with h | h | h | h <;>
      subst h <;> simp [addGroup, hc, extOpt_nil]

theorem addGroup_achievements (s : Subject) (head : String) (paras : List String) :
    (addGroup s head paras).achievements =
      extOpt s.achievements
        (if canonical head = some "achievements" then
          (paras.filter (fun t => t ≠ "")).map to_ach
        else []) := by
  rcases hc : canonical head with _ | key
  · simp [addGroup, hc, extOpt_nil]
  · rcases canonical_cases head key hc with h | h | h | h <;>
      subst h <;> simp [addGroup, hc, extOpt_nil]

theorem routedTexts_cons (key : String) (h : String) (p : List String)
    (rest : List (String × List String)) :
    routedTexts key ((h, p) :: rest) =
      (if canonical h = some key then p.filter (fun t => t ≠ "") else [])
        ++ routedTexts key rest := rfl

theorem sectionLoop_go (sections : List (String × List String)) : ∀ s : Subject,
    sections.foldl (fun acc g => addGroup acc g.1 g.2) s =
      { positionHistory :=
          extOpt s.positionHistory ((routedTexts "positionHistory" sections).map to_position),
        educationHistory :=
          extOpt s.educationHistory ((routedTexts "educationHistory" sections).map to_edu),
        competency :=
          extOpt s.competency ((routedTexts "competency" sections).map to_comp),
        achievements :=
          extOpt s.achievements ((routedTexts "achievements" sections).map to_ach) } := by
  induction sections with
  | nil => intro s; simp [routedTexts, extOpt_nil]
  | cons g rest ih =>
    intro s
    rcases g with ⟨h, p⟩
    rw [List.foldl_cons, ih (addGroup s h p)]
    have e1 := addGroup_positionHistory s h p
    have e2 := addGroup_educationHistory s h p
    have e3 := addGroup_competency s h p
    have e4 := addGroup_achievements s h p
    simp only [routedTexts_cons, List.map_append, e1, e2, e3, e4, extOpt_append,
      apply_ite (List.map to_position), apply_ite (List.map to_edu),
      apply_ite (List.map to_comp), apply_ite (List.map to_ach), List.map_nil]

theorem extOpt_none {α : Type} (l : List α) : extOpt none l = optOfList l := by
  cases l <;> simp [extOpt, optOfList]

/-- C4: routing of heading groups into the canonical collections.  Each of
the four collections of the subject built by the sections loop is exactly
the per-paragraph records of the non-empty paragraphs of those groups
whose heading canonicalises (lower-cased and trimmed, via the fixed
mapping table) to its key, concatenated in the order the groups occur; the
collection is absent when no such paragraph exists.  Groups whose heading
is not in the table (after the same normalisation) satisfy
`canonical h = none` and so contribute to none of the four collections. -/
theorem sectionLoop_routes (sections : List (String × List String)) :
    (sectionLoop sections).positionHistory
        = optOfList ((routedTexts "positionHistory" sections).map to_position) ∧
    (sectionLoop sections).educationHistory
        = optOfList ((routedTexts "educationHistory" sections).map to_edu) ∧
    (sectionLoop sections).competency
        = optOfList ((routedTexts "competency" sections).map to_comp) ∧
    (sectionLoop sections).achievements
        = optOfList ((routedTexts "achievements" sections).map to_ach) := by
  unfold sectionLoop
  rw [sectionLoop_go sections emptySubject]
  simp [emptySubject, extOpt_none]

/-! ## Claim theorem on the fallback injection -/

/-- C3: when the heading groups populate no canonical collection (in
particular for a document with zero detected headings), the built subject
has exactly one canonical collection: `positionHistory` holding the single
all-null fallback `Position`; normalising the JSON form of that record
turns its three null fields into the string `"Unknown"`.  When at least one
collection is populated, the subject is exactly the loop's result — no
fallback record is injected. -/
theorem build_subject_fallback (sections : List (String × List String)) :
    (hasAnyCollection (sectionLoop sections) = false →
      build_subject sections =
        { positionHistory := some [nullPosition], educationHistory := none,
          competency := none, achievements := none } ∧
      ∀ id : String, replace_nulls (positionJson id nullPosition) =
        .obj [("id", .str id), ("type", .str "Position"),
              ("jobTitle", .str "Unknown"), ("organization", .str "Unknown"),
              ("description", .str "Unknown")]) ∧
    (hasAnyCollection (sectionLoop sections) = true →
      build_subject sections = sectionLoop sections) := by
  constructor
  · intro h
    constructor
    · simp [build_subject, h, emptySubject]
    · intro id
      rfl
  · intro h
    simp [build_subject, h]

/-- Witness for C3: the zero-headings document yields exactly the fallback
subject, and a populated document is left as built. -/
theorem build_subject_fallback_witness :
    build_subject [] =
      { positionHistory := some [nullPosition], educationHistory := none,
        competency := none, achievements := none } ∧
    build_subject [("Skills", ["Python"])] = sectionLoop [("Skills", ["Python"])] :=
  ⟨((build_subject_fallback []).1 (by decide)).1,
   (build_subject_fallback [("Skills", ["Python"])]).2 (by decide)⟩

/-- Witness companion for C4 is not needed (no hypotheses), but the
end-to-end scenario of the spec is worth checking concretely: the
`EXPERIENCE`/`SKILLS` document routes one position and two competencies. -/
theorem sectionLoop_scenario :
    sectionLoop [("EXPERIENCE", ["Software Engineer – Acme Corp"]), ("SKILLS", ["Python", "Go"])] =
      { positionHistory := some [{ jobTitle := some "Software Engineer",
                                   organization := some "Acme Corp",
                                   description := some "Software Engineer – Acme Corp" }],
        educationHistory := none,
        competency := some [{ name := some "Python" }, { name := some "Go" }],
        achievements := none } := by
  decide

/-! ## Lemmas on the parse-loop dictionary -/

theorem alookup_map_set (d : List (String × List String)) (k : String) (v : List String)
    (hany : d.any (fun e => e.1 = k) = true) :
    alookup k (d.map (fun e => (e.1, if e.1 = k then v else e.2))) = some v := by
  induction d with
  | nil => simp at hany
  | cons e rest ih =>
    rcases e with ⟨a, w⟩
    by_cases hk : a = k
    · simp [alookup, hk]
    · simp only [List.any_cons, Bool.or_eq_true, decide_eq_true_eq] at hany
      rcases hany with h | h
      · exact absurd h hk
      · simp [alookup, hk, ih h]

theorem alookup_append_new (d : List (String × List String)) (k : String) (v : List String)
    (hany : d.any (fun e => e.1 = k) = false) :
    alookup k (d ++ [(k, v)]) = some v := by
  induction d with
  | nil => simp [alookup]
  | cons e rest ih =>
    rcases e with ⟨a, w⟩
    simp only [List.any_cons, Bool.or_eq_false_iff, decide_eq_false_iff_not] at hany
    rw [List.cons_append, alookup, if_neg hany.1]
    exact ih (by simp [hany.2])

theorem alookup_dictSet_self (d : List (String × List String)) (k : String) (v : List String) :
    alookup k (dictSet d k v) = some v := by
  unfold dictSet
  by_cases hany : d.any (fun e => e.1 = k) = true
  · rw [if_pos hany]
    exact alookup_map_set d k v hany
  · rw [if_neg hany]
    exact alookup_append_new d k v (Bool.not_eq_true _ ▸ hany)

theorem alookup_map_set_ne (d : List (String × List String)) (k t : String)
    (v : List String) (h : k ≠ t) :
    alookup t (d.map (fun e => (e.1, if e.1 = k then v else e.2))) = alookup t d := by
  induction d with
  | nil => rfl
  | cons e rest ih =>
    rcases e with ⟨a, w⟩
    simp only [List.map_cons, alookup]
    by_cases ha : a = t
    · rw [if_pos ha, if_pos ha, if_neg (fun hk : a = k => h (by rw [← hk]; exact ha))]
    · rw [if_neg ha, if_neg ha]
      exact ih

theorem alookup_append_ne (d : List (String × List String)) (k t : String)
    (v : List String) (h : k ≠ t) :
    alookup t (d ++ [(k, v)]) = alookup t d := by
  induction d with
  | nil => simp only [List.nil_append, alookup, if_neg h]
  | cons e rest ih =>
    rcases e with ⟨a, w⟩
    simp only [List.cons_append, alookup]
    by_cases ha : a = t
    · rw [if_pos ha, if_pos ha]
    · rw [if_neg ha, if_neg ha]
      exact ih

theorem alookup_dictSet_ne (d : List (String × List String)) (k t : String)
    (v : List String) (h : k ≠ t) :
    alookup t (dictSet d k v) = alookup t d := by
  unfold dictSet
  by_cases hany : d.any (fun e => e.1 = k) = true
  · rw [if_pos hany]
    exact alookup_map_set_ne d k t v h
  · rw [if_neg hany]
    exact alookup_append_ne d k t v h

theorem alookup_dictAppend (d : List (String × List String)) (k t : String) (x : String) :
    alookup t (dictAppend d k x) =
      (alookup t d).map (fun l => if t = k then l ++ [x] else l) := by
  induction d with
  | nil => rfl
  | cons e rest ih =>
    rcases e with ⟨a, w⟩
    by_cases ha : a = t
    · subst ha
      by_cases hk : a = k <;> simp [dictAppend, alookup, hk] <;> simp [eq_comm, hk]
    · simp [dictAppend, alookup, ha] at ih ⊢
      exact ih

/-! ## Two runs of the parse loop with agreeing open group -/

/-- The relation between two loop states that the repeated-heading claim
needs: same open heading and same content of the tracked group `t`. -/
def outEq (t : String) (s1 s2 : PState) : Prop :=
  s1.current = s2.current ∧ alookup t s1.out = alookup t s2.out

theorem parse_step_outEq (t : String) (p : Para) (s1 s2 : PState) (h : outEq t s1 s2) :
    outEq t (parse_step s1 p) (parse_step s2 p) := by
  obtain ⟨hc, he⟩ := h
  unfold parse_step
  by_cases h1 : pyStrip p.text = ""
  · simp only [if_pos h1]
    exact ⟨hc, he⟩
  · simp only [if_neg h1]
    by_cases h2 : pyLower p.style = "title" ∨ pyStartsWith (pyLower p.style) "heading 1" = true
    · simp only [if_pos h2]
      rcases hn1 : s1.name <;> rcases hn2 : s2.name <;> simp <;> exact ⟨hc, he⟩
    · simp only [if_neg h2]
      by_cases h3 : (pyStartsWith (pyLower p.style) "heading" = true
            ∧ ¬pyStartsWith (pyLower p.style) "heading 1" = true)
          ∨ looks_like_heading (pyStrip p.text) = true
      · simp only [if_pos h3]
        refine ⟨rfl, ?_⟩
        by_cases ht : pyStrip p.text = t
        · subst ht
          rw [alookup_dictSet_self, alookup_dictSet_self]
        · rw [alookup_dictSet_ne _ _ _ _ ht, alookup_dictSet_ne _ _ _ _ ht]
          exact he
      · simp only [if_neg h3]
        rw [hc]
        rcases hcur : s2.current with _ | cur
        · exact ⟨hc, he⟩
        · by_cases hc0 : cur = ""
          · simp only [if_pos hc0]
            exact ⟨hc, he⟩
          · simp only [if_neg hc0]
            refine ⟨rfl, ?_⟩
            rw [alookup_dictAppend, alookup_dictAppend, he]

theorem foldl_outEq (t : String) (ps : List Para) : ∀ s1 s2 : PState,
    outEq t s1 s2 →
    outEq t (ps.foldl parse_step s1) (ps.foldl parse_step s2) := by
  induction ps with
  | nil => intro s1 s2 h; exact h
  | cons p rest ih =>
    intro s1 s2 h
    exact ih _ _ (parse_step_outEq t p s1 s2 h)

theorem parse_step_heading (st : PState) (p : Para) (hp : isSectionHeading p) :
    parse_step st p =
      { st with current := some (pyStrip p.text),
                out := dictSet st.out (pyStrip p.text) [] } := by
  obtain ⟨h1, h2, h3⟩ := hp
  unfold parse_step
  rw [if_neg h1, if_neg h2, if_pos h3]

/-- C5: when a section heading is detected again later in the paragraph
stream, its group is reset: the output group for that heading text is
exactly what a run starting at the later occurrence would produce, so the
body paragraphs collected before the repeat are discarded, not appended. -/
theorem parse_docx_repeated_heading (pre post : List Para) (p : Para)
    (hp : isSectionHeading p) :
    alookup (pyStrip p.text) (parse_docx (pre ++ p :: post)).2 =
    alookup (pyStrip p.text) (parse_docx (p :: post)).2 := by
  unfold parse_docx
  simp only [List.foldl_append, List.foldl_cons]
  rw [parse_step_heading _ p hp, parse_step_heading _ p hp]
  apply (foldl_outEq (pyStrip p.text) post _ _ ?_).2
  constructor
  · rfl
  · rw [alookup_dictSet_self, alookup_dictSet_self]

/-- Witness for C5: an `EXPERIENCE` heading seen twice — the group equals
that of the run beginning at the second occurrence (the earlier body
paragraph `"Old body line"` is dropped), checked by evaluation as well. -/
theorem parse_docx_repeated_heading_witness :
    alookup (pyStrip (Para.mk "EXPERIENCE" "heading 2").text)
      (parse_docx ([Para.mk "EXPERIENCE" "heading 2", Para.mk "Old body line" ""]
        ++ Para.mk "EXPERIENCE" "heading 2" :: [Para.mk "New body line" ""])).2 =
    alookup (pyStrip (Para.mk "EXPERIENCE" "heading 2").text)
      (parse_docx (Para.mk "EXPERIENCE" "heading 2" :: [Para.mk "New body line" ""])).2 :=
  parse_docx_repeated_heading [Para.mk "EXPERIENCE" "heading 2", Para.mk "Old body line" ""]
    [Para.mk "New body line" ""] (Para.mk "EXPERIENCE" "heading 2") (by decide)

/-! ## Idempotence of the null-normaliser -/

mutual

theorem replace_nulls_idem_go : ∀ j : Json,
    replace_nulls (replace_nulls j) = replace_nulls j
  | .null => rfl
  | .str _ => rfl
  | .num _ => rfl
  | .bool _ => rfl
  | .arr [] => rfl
  | .arr (x :: rest) => by
    show Json.arr (replace_nulls (replace_nulls x) :: replaceList (replaceList rest))
        = Json.arr (replace_nulls x :: replaceList rest)
    rw [replace_nulls_idem_go x, replaceList_idem_go rest]
  | .obj kvs => by
    show Json.obj (replaceObj (replaceObj kvs)) = Json.obj (replaceObj kvs)
    rw [replaceObj_idem_go kvs]

theorem replaceList_idem_go : ∀ l : List Json,
    replaceList (replaceList l) = replaceList l
  | [] => rfl
  | x :: xs => by
    show replace_nulls (replace_nulls x) :: replaceList (replaceList xs)
        = replace_nulls x :: replaceList xs
    rw [replace_nulls_idem_go x, replaceList_idem_go xs]

theorem replaceObj_idem_go : ∀ kvs : List (String × Json),
    replaceObj (replaceObj kvs) = replaceObj kvs
  | [] => rfl
  | (k, v) :: rest => by
    show (k, replace_nulls (replace_nulls v)) :: replaceObj (replaceObj rest)
        = (k, replace_nulls v) :: replaceObj rest
    rw [replace_nulls_idem_go v, replaceObj_idem_go rest]

end

/-- C6: the null-normaliser is idempotent — applying `replace_nulls` twice
to any JSON-like value (null, scalar, array, map) gives the same result as
applying it once. -/
theorem replace_nulls_idempotent (j : Json) :
    replace_nulls (replace_nulls j) = replace_nulls j :=
  replace_nulls_idem_go j

/-! ## The normalisation pass and the signature placeholder -/

theorem replaceList_eq_map (l : List Json) : replaceList l = l.map replace_nulls := by
  induction l with
  | nil => rfl
  | cons x xs ih => simp only [replaceList, List.map_cons, ih]

theorem replaceObj_eq_map (kvs : List (String × Json)) :
    replaceObj kvs = kvs.map (fun kv => (kv.1, replace_nulls kv.2)) := by
  induction kvs with
  | nil => rfl
  | cons kv rest ih =>
    rcases kv with ⟨k, v⟩
    simp only [replaceObj, List.map_cons, ih]

theorem alookup_map_values {β γ : Type} (t : String) (f : β → γ)
    (kvs : List (String × β)) :
    alookup t (kvs.map (fun kv => (kv.1, f kv.2))) = (alookup t kvs).map f := by
  induction kvs with
  | nil => rfl
  | cons kv rest ih =>
    rcases kv with ⟨k, v⟩
    by_cases hk : k = t
    · simp [alookup, hk]
    · simp only [List.map_cons, alookup, if_neg hk]
      exact ih

theorem alookup_objSet_self (kvs : List (String × Json)) (k : String) (v w : Json)
    (h : alookup k kvs = some w) :
    alookup k (objSet kvs k v) = some v := by
  induction kvs with
  | nil => simp [alookup] at h
  | cons kv rest ih =>
    rcases kv with ⟨a, u⟩
    by_cases ha : a = k
    · simp [objSet, alookup, ha]
    · rw [alookup, if_neg ha] at h
      simp only [objSet, List.map_cons, alookup, if_neg ha]
      exact ih h

theorem replace_nulls_obj (kvs : List (String × Json)) :
    replace_nulls (.obj kvs) = .obj (kvs.map (fun kv => (kv.1, replace_nulls kv.2))) := by
  show Json.obj (replaceObj kvs) = _
  rw [replaceObj_eq_map]

/-- C7: the normalisation pass.  `replace_nulls` turns every null scalar
into `"Unknown"`, turns the empty array into `["Unknown"]`, recurses into
non-empty arrays and into maps without changing their shape (same length,
same keys in the same order), and leaves strings — in particular the empty
`jws` string — untouched; the subsequent `main` fix-up (`finalize`) then
sets a credential's `proof.jws` entry, when it is the empty string, to the
placeholder `"dummy"`, never to `"Unknown"`. -/
theorem replace_nulls_spec :
    (replace_nulls .null = .str "Unknown") ∧
    (replace_nulls (.arr []) = .arr [.str "Unknown"]) ∧
    (∀ x xs, replace_nulls (.arr (x :: xs)) = .arr ((x :: xs).map replace_nulls)) ∧
    (∀ kvs, replace_nulls (.obj kvs) = .obj (kvs.map (fun kv => (kv.1, replace_nulls kv.2)))) ∧
    (∀ s, replace_nulls (.str s) = .str s) ∧
    (∀ kvs pkvs, alookup "proof" kvs = some (.obj pkvs) →
      alookup "jws" pkvs = some (.str "") →
      jwsOf (finalize (.obj kvs)) = some (.str "dummy") ∧
      jwsOf (finalize (.obj kvs)) ≠ some (.str "Unknown")) := by
  refine ⟨rfl, rfl, ?_, ?_, fun _ => rfl, ?_⟩
  · intro x xs
    show Json.arr (replace_nulls x :: replaceList xs) = _
    rw [replaceList_eq_map, List.map_cons]
  · intro kvs
    exact replace_nulls_obj kvs
  · intro kvs pkvs hpf hjw
    have hpf' : alookup "proof" (kvs.map (fun kv => (kv.1, replace_nulls kv.2)))
        = some (.obj (pkvs.map (fun kv => (kv.1, replace_nulls kv.2)))) := by
      rw [alookup_map_values, hpf]
      simp [replace_nulls_obj]
    have hjw' : alookup "jws" (pkvs.map (fun kv => (kv.1, replace_nulls kv.2)))
        = some (.str "") := by
      rw [alookup_map_values, hjw]
      rfl
    have hfix : finalize (.obj kvs) =
        .obj (objSet (kvs.map (fun kv => (kv.1, replace_nulls kv.2))) "proof"
          (.obj (objSet (pkvs.map (fun kv => (kv.1, replace_nulls kv.2))) "jws"
            (.str "dummy")))) := by
      unfold finalize
      rw [replace_nulls_obj]
      simp only [fixJws, hpf', hjw']
      rfl
    have h1 := alookup_objSet_self (kvs.map (fun kv => (kv.1, replace_nulls kv.2))) "proof"
      (.obj (objSet (pkvs.map (fun kv => (kv.1, replace_nulls kv.2))) "jws" (.str "dummy")))
      _ hpf'
    have h2 := alookup_objSet_self (pkvs.map (fun kv => (kv.1, replace_nulls kv.2))) "jws"
      (.str "dummy") _ hjw'
    rw [hfix]
    constructor
    · simp only [jwsOf, h1, h2]
    · simp only [jwsOf, h1, h2]
      intro hcontra
      have hds : "dummy" = "Unknown" := by
        injection Option.some.inj hcontra
      exact absurd hds (by decide)

/-- Witness for C7: a small credential whose `proof.jws` is the empty
string gets the `"dummy"` placeholder, not `"Unknown"`. -/
theorem replace_nulls_spec_witness :
    jwsOf (finalize (.obj [("issuer", .null),
      ("proof", .obj [("type", .str "JsonWebSignature2020"), ("jws", .str "")])]))
      = some (.str "dummy") :=
  (replace_nulls_spec.2.2.2.2.2 [("issuer", .null),
      ("proof", .obj [("type", .str "JsonWebSignature2020"), ("jws", .str "")])]
      [("type", .str "JsonWebSignature2020"), ("jws", .str "")] rfl rfl).1
